import Mathlib

/-!
Verification of the SMARWI device core (custom_components/smarwi).

The definitions below are a shallow embedding of the Python sources:
  - device.py: the key-value codec (decode_keyval / encode_keyval), the
    IPv4 helper (parse_ipv4), the StateCode classifier, the status-message
    handler of SmarwiDevice, async_stop, and the FinetuneSettings class;
  - cover.py: the position-reconciliation logic of SmarwiCover
    (async_handle_update, is_opening, is_closing);
  - const.py: NEAR_FRAME_POSITION.

Python strings are modelled as Lean String / List Char, Python dicts as
association lists with Python dict insertion semantics (updating an
existing key keeps its position, a new key is appended), Python ints as
Lean Int, and a raised exception as Option.none.
-/

namespace Smarwi

/-- Line-boundary characters recognised by Python str.splitlines:
LF, CR, VT (0x0B), FF (0x0C), FS (0x1C), GS (0x1D), RS (0x1E),
NEL (0x85), LS (0x2028), PS (0x2029).  CRLF is treated as a single
boundary by splitlinesAux below. -/
def isLineBreakChar (c : Char) : Bool :=
  c == '\n' || c == '\r' || c == Char.ofNat 0x0B || c == Char.ofNat 0x0C ||
  c == Char.ofNat 0x1C || c == Char.ofNat 0x1D || c == Char.ofNat 0x1E ||
  c == Char.ofNat 0x85 || c == Char.ofNat 0x2028 || c == Char.ofNat 0x2029

/-- Worker for Python str.splitlines: the first argument is the remaining
input, the second the current line accumulated in reverse. -/
def splitlinesAux : List Char → List Char → List (List Char)
  | [], acc => if acc.isEmpty then [] else [acc.reverse]
  | c :: rest, acc =>
    if c == '\r' then
      match rest with
      | [] => [acc.reverse]
      | d :: rest2 =>
        if d == '\n' then acc.reverse :: splitlinesAux rest2 []
        else acc.reverse :: splitlinesAux (d :: rest2) []
    else if isLineBreakChar c then acc.reverse :: splitlinesAux rest []
    else splitlinesAux rest (c :: acc)

/-- Python str.splitlines (without keepends). -/
def splitlines (s : String) : List (List Char) :=
  splitlinesAux s.data []

/-- Python line.split(":", 1): returns the part before the first colon and
the part after it, or none when the line has no colon (in which case the
dict() constructor in decode_keyval raises ValueError). -/
def splitFirstColon : List Char → Option (List Char × List Char)
  | [] => none
  | c :: rest =>
    if c == ':' then some ([], rest)
    else (splitFirstColon rest).map (fun p => (c :: p.1, p.2))

/-- Python dict insertion: assigning to an existing key updates its value
in place, a new key is appended at the end. -/
def dictInsert (d : List (String × String)) (k v : String) :
    List (String × String) :=
  if d.any (fun p => p.1 == k) then
    d.map (fun p => if p.1 == k then (k, v) else p)
  else d ++ [(k, v)]

/-- Folds the split lines into a Python dict; none models the ValueError
raised by dict() when some line has no colon. -/
def decodeLines : List (List Char) → List (String × String) →
    Option (List (String × String))
  | [], d => some d
  | l :: rest, d =>
    match splitFirstColon l with
    | none => none
    | some (k, v) => decodeLines rest (dictInsert d (String.mk k) (String.mk v))

/-- device.py decode_keyval: parse key:value pairs separated by newlines;
none models the ValueError raised on a line without a colon. -/
def decode_keyval (payload : String) : Option (List (String × String)) :=
  decodeLines (splitlines payload) []

/-- device.py encode_keyval: the dict encoded as key:value pairs joined
with a newline (Python "\n".join over the items). -/
def encode_keyval : List (String × String) → String
  | [] => ""
  | [p] => p.1 ++ ":" ++ p.2
  | p :: rest => p.1 ++ ":" ++ p.2 ++ "\n" ++ encode_keyval rest

/-- device.py parse_ipv4: socket.inet_ntoa(struct.pack("<L", packed_ip)),
i.e. the 32-bit value is split into bytes least-significant first and
printed as a dotted quad. -/
def parse_ipv4 (packed_ip : Nat) : String :=
  toString (packed_ip % 256) ++ "." ++ toString (packed_ip / 256 % 256) ++ "." ++
    toString (packed_ip / 65536 % 256) ++ "." ++ toString (packed_ip / 16777216 % 256)

/-- Digit-string to Nat accumulator for parse_decimal. -/
def digitsToNatAux : List Char → Nat → Option Nat
  | [], acc => some acc
  | c :: rest, acc =>
    if c.isDigit then digitsToNatAux rest (acc * 10 + (c.toNat - '0'.toNat))
    else none

/-- Nonempty all-digit character list to Nat. -/
def digitsToNat : List Char → Option Nat
  | [] => none
  | l => digitsToNatAux l 0

/-- Python int(str) on canonical decimal strings: an optional minus sign
followed by one or more digits; none models the ValueError raised on any
other input. -/
def parse_decimal (s : String) : Option Int :=
  match s.data with
  | '-' :: ds => (digitsToNat ds).map (fun n => -(n : Int))
  | ds => (digitsToNat ds).map (fun n => (n : Int))

/-- The integer values of the StateCode enumeration members (device.py). -/
def stateCodeMembers : List Int :=
  [0, 10, 20, 30, 110, 120, 130, 200, 210, 212, 214, 216,
   220, 230, 231, 232, 234, 250]

namespace StateCode

/-- StateCode(value): a recognised code maps to itself, any other value
falls back to StateCode.UNKNOWN = 0 (the overridden missing hook). -/
def ofInt (c : Int) : Int :=
  if c ∈ stateCodeMembers then c else 0

/-- StateCode.is_closing: 220 <= value < 240. -/
def is_closing (v : Int) : Bool :=
  decide (220 ≤ v ∧ v < 240)

/-- StateCode.is_error: value < 200. -/
def is_error (v : Int) : Bool :=
  decide (v < 200)

/-- StateCode.is_idle: the member equals StateCode.IDLE (250). -/
def is_idle (v : Int) : Bool :=
  v == 250

/-- StateCode.is_opening: 200 <= value < 220. -/
def is_opening (v : Int) : Bool :=
  decide (200 ≤ v ∧ v < 220)

/-- StateCode.is_moving: is_opening or is_closing. -/
def is_moving (v : Int) : Bool :=
  is_opening v || is_closing v

/-- StateCode.is_near_frame: the member is one of OPENING_START (200),
REOPEN_PHASE (214), CLOSING (230), CLOSING_NICE (231). -/
def is_near_frame (v : Int) : Bool :=
  v == 200 || v == 214 || v == 230 || v == 231

end StateCode

/-- SmarwiDeviceProp (device.py): the updatable properties of a device;
the first eight are status-frame keys, AVAILABLE and FINETUNE_SETTINGS
are the synthetic members. -/
inductive SmarwiDeviceProp where
  | name
  | ridge_fixed
  | fw_version
  | ip_address
  | closed
  | ridge_inside
  | rssi
  | state_code
  | available
  | finetune_settings
deriving DecidableEq

/-- The string value of each SmarwiDeviceProp member (StrEnum values). -/
def SmarwiDeviceProp.value : SmarwiDeviceProp → String
  | .name => "cid"
  | .ridge_fixed => "fix"
  | .fw_version => "fw"
  | .ip_address => "ip"
  | .closed => "pos"
  | .ridge_inside => "ro"
  | .rssi => "rssi"
  | .state_code => "s"
  | .available => "available"
  | .finetune_settings => "finetune_settings"

/-- The members of SmarwiDeviceProp in declaration order (list(SmarwiDeviceProp)). -/
def allProps : List SmarwiDeviceProp :=
  [.name, .ridge_fixed, .fw_version, .ip_address, .closed, .ridge_inside,
   .rssi, .state_code, .available, .finetune_settings]

/-- The status dict built from a decoded frame by the comprehension in
SmarwiDevice async handle status message: a wire key is kept iff it equals
the value of some SmarwiDeviceProp member; the dict is represented as the
lookup function on members (the decoded dict has unique keys, so find?
returns the stored value). -/
def statusOfDecoded (kvs : List (String × String)) :
    SmarwiDeviceProp → Option String :=
  fun p => (kvs.find? (fun e => e.1 == p.value)).map (fun e => e.2)

/-- The changed-property set: every member whose value differs between the
previous and the new snapshot (absence counts as a difference). -/
def changedProps (old new : SmarwiDeviceProp → Option String) :
    List SmarwiDeviceProp :=
  allProps.filter (fun p => old p ≠ new p)

/-- Emptiness of a status snapshot (Python: not self.status). -/
def statusEmpty (status : SmarwiDeviceProp → Option String) : Bool :=
  allProps.all (fun p => (status p).isNone)

/-- The mutable state of a SmarwiDevice that the status handler can see:
the status snapshot, the availability flag, the finetune settings cache,
and a counter of discovery-new signals sent so far. -/
structure DeviceState where
  status : SmarwiDeviceProp → Option String
  avail : Bool
  finetuneData : List (String × Int)
  discoveryCount : Nat

/-- A freshly constructed device: empty snapshot, unavailable, empty
finetune cache, no discovery signal sent. -/
def initialState : DeviceState :=
  { status := fun _ => none
    avail := false
    finetuneData := []
    discoveryCount := 0 }

/-- SmarwiDevice async handle status message: decode the payload (a raised
ValueError leaves the state untouched and dispatches nothing — the none
result), filter to known keys, diff against the previous snapshot, send
the discovery signal when the previous snapshot was empty, replace the
snapshot, and dispatch the changed-property set. -/
def handleStatusMessage (st : DeviceState) (payload : String) :
    DeviceState × Option (List SmarwiDeviceProp) :=
  match decode_keyval payload with
  | none => (st, none)
  | some kvs =>
    let status := statusOfDecoded kvs
    let changed := changedProps st.status status
    let newCount :=
      if statusEmpty st.status then st.discoveryCount + 1 else st.discoveryCount
    ({ st with status := status, discoveryCount := newCount }, some changed)

/-- Apply a sequence of status frames to a device state in order. -/
def runFrames (st : DeviceState) (frames : List String) : DeviceState :=
  frames.foldl (fun s f => (handleStatusMessage s f).1) st

/-- SmarwiDevice.closed: some (value == "c") when the pos key is present,
none otherwise. -/
def deviceClosed (status : SmarwiDeviceProp → Option String) : Option Bool :=
  (status SmarwiDeviceProp.closed).map (fun v => v == "c")

/-- SmarwiDevice.state_code: StateCode(int(status.get("s") or 0)) — an
absent or empty value falls back to 0, any other value is parsed as a
decimal integer (none models the ValueError) and classified. -/
def device_state_code (status : SmarwiDeviceProp → Option String) : Option Int :=
  match status SmarwiDeviceProp.state_code with
  | none => some (StateCode.ofInt 0)
  | some s =>
    if s == "" then some (StateCode.ofInt 0)
    else (parse_decimal s).map StateCode.ofInt

/-- SmarwiDevice.ip_address: none when the ip key is absent from the
snapshot, otherwise the parsed dotted quad (none also models the
exception raised on an unparsable or out-of-range value). -/
def device_ip_address (status : SmarwiDeviceProp → Option String) : Option String :=
  match status SmarwiDeviceProp.ip_address with
  | none => none
  | some s =>
    (parse_decimal s).bind (fun n =>
      if 0 ≤ n ∧ n < 4294967296 then some (parse_ipv4 n.toNat) else none)

/-- SmarwiDevice.async_stop: the list of commands published — two stop
commands when the current state code is moving, none otherwise; none
models the exception raised if the stored state code does not parse. -/
def async_stop (status : SmarwiDeviceProp → Option String) : Option (List String) :=
  (device_state_code status).map (fun v =>
    if StateCode.is_moving v then ["stop", "stop"] else [])

/-- Python dict insertion for the finetune settings cache (str keys, int
values): same semantics as dictInsert. -/
def dictInsertInt (d : List (String × Int)) (k : String) (v : Int) :
    List (String × Int) :=
  if d.any (fun p => p.1 == k) then
    d.map (fun p => if p.1 == k then (k, v) else p)
  else d ++ [(k, v)]

/-- FinetuneSettings.async_set: copy the cache, set the key, log the old
value (self data[key.value] — a KeyError, the none result, when the key
is not cached, raised before anything is sent), then publish the settings
write command followed by the refresh command of async_update. -/
def finetune_async_set (cache : List (String × Int)) (key : String) (value : Int) :
    Option (List String) :=
  let data := dictInsertInt cache key value
  if cache.any (fun p => p.1 == key) then
    some ["scfa01/1|" ++ encode_keyval (data.map (fun p => (p.1, toString p.2))),
          "lcfa"]
  else none

/-- FinetuneSettings.async_update: unconditionally publish the lcfa
command requesting the settings; the device state is not consulted. -/
def finetune_async_update (_st : DeviceState) : List String :=
  ["lcfa"]

/-- const.py NEAR_FRAME_POSITION. -/
def NEAR_FRAME_POSITION : Int := 5

/-- The mutable state of a SmarwiCover: current position, requested
position (-1 is the unknown sentinel for both) and the moving flag. -/
structure CoverState where
  position : Int
  requested_position : Int
  is_moving : Bool
deriving DecidableEq

/-- SmarwiCover async handle update (cover.py): returns without change
unless the changed properties include CLOSED, RIDGE_FIXED or STATE_CODE;
then branches on the classified state code: error resets everything,
moving sets the moving flag (and the near-frame pseudo position), idle
reconciles position against the requested position. -/
def cover_handle_update (cs : CoverState) (changed : List SmarwiDeviceProp)
    (code : Int) (closed : Option Bool) : CoverState :=
  if ¬ (SmarwiDeviceProp.closed ∈ changed ∨ SmarwiDeviceProp.ridge_fixed ∈ changed ∨
        SmarwiDeviceProp.state_code ∈ changed) then cs
  else
    let v := StateCode.ofInt code
    if StateCode.is_error v then
      { is_moving := false, position := -1, requested_position := -1 }
    else if StateCode.is_moving v then
      { cs with
        is_moving := true
        position := if StateCode.is_near_frame v then NEAR_FRAME_POSITION else cs.position }
    else if StateCode.is_idle v then
      if closed = some true then
        { is_moving := false, position := 0, requested_position := -1 }
      else if cs.is_moving then
        { is_moving := false
          position := if cs.requested_position ≥ 0 then cs.requested_position else -1
          requested_position := -1 }
      else cs
    else cs

/-- SmarwiCover.is_opening: when a requested position is tracked (>= 0),
moving and requested above current; otherwise fall back to the state-code
opening predicate. -/
def cover_is_opening (cs : CoverState) (code : Int) : Bool :=
  if cs.requested_position ≥ 0 then
    cs.is_moving && decide (cs.requested_position > cs.position)
  else
    StateCode.is_opening (StateCode.ofInt code)

/-- SmarwiCover.is_closing: moving and not opening. -/
def cover_is_closing (cs : CoverState) (code : Int) : Bool :=
  cs.is_moving && ! cover_is_opening cs code

/-- C1: for every update of the position-reconciliation state machine in
which the state code is idle: if the device reports fully closed, the
cover becomes not moving at position 0 with the requested position
cleared; otherwise, if it was previously moving, it becomes not moving,
the position becomes the requested position when known and unknown
otherwise, and the requested position is cleared; otherwise nothing
changes. -/
theorem C1_idle_reconciliation (cs : CoverState) (changed : List SmarwiDeviceProp)
    (code : Int) (closed : Option Bool)
    (hg : SmarwiDeviceProp.closed ∈ changed ∨ SmarwiDeviceProp.ridge_fixed ∈ changed ∨
          SmarwiDeviceProp.state_code ∈ changed)
    (hi : StateCode.is_idle (StateCode.ofInt code) = true) :
    (closed = some true →
      cover_handle_update cs changed code closed =
        { position := 0, requested_position := -1, is_moving := false }) ∧
    (closed ≠ some true → cs.is_moving = true →
      cover_handle_update cs changed code closed =
        { position := if cs.requested_position ≥ 0 then cs.requested_position else -1,
          requested_position := -1, is_moving := false }) ∧
    (closed ≠ some true → cs.is_moving = false →
      cover_handle_update cs changed code closed = cs) := by
  have hv : StateCode.ofInt code = 250 := by
    simpa [StateCode.is_idle] using hi
  refine ⟨fun hc => ?_, fun hc hm => ?_, fun hc hm => ?_⟩
  · rcases hg with h | h | h <;>
      simp [cover_handle_update, h, hv, hc, StateCode.is_error,
        StateCode.is_moving, StateCode.is_opening, StateCode.is_closing,
        StateCode.is_idle]
  · rcases hg with h | h | h <;>
      simp [cover_handle_update, h, hv, hc, hm, StateCode.is_error,
        StateCode.is_moving, StateCode.is_opening, StateCode.is_closing,
        StateCode.is_idle]
  · rcases hg with h | h | h <;>
      simp [cover_handle_update, h, hv, hc, hm, StateCode.is_error,
        StateCode.is_moving, StateCode.is_opening, StateCode.is_closing,
        StateCode.is_idle]

/-- Witness for C1 at a concrete idle update. -/
theorem C1_witness :
    cover_handle_update ⟨50, 80, true⟩ [SmarwiDeviceProp.state_code] 250 (some true) =
      { position := 0, requested_position := -1, is_moving := false } :=
  (C1_idle_reconciliation ⟨50, 80, true⟩ [SmarwiDeviceProp.state_code] 250 (some true)
    (by decide) (by decide)).1 rfl

/-- C2: the derived opening flag equals moving-and-requested-above-current
whenever a requested position is tracked, and falls back to the raw
state-code opening predicate otherwise; the derived closing flag always
equals moving and not opening. -/
theorem C2_direction_derived (cs : CoverState) (code : Int) :
    (cs.requested_position ≥ 0 →
      cover_is_opening cs code =
        (cs.is_moving && decide (cs.requested_position > cs.position))) ∧
    (cs.requested_position < 0 →
      cover_is_opening cs code = StateCode.is_opening (StateCode.ofInt code)) ∧
    cover_is_closing cs code = (cs.is_moving && ! cover_is_opening cs code) := by
  refine ⟨fun h => ?_, fun h => ?_, rfl⟩
  · simp [cover_is_opening, h]
  · simp [cover_is_opening, show ¬ cs.requested_position ≥ 0 by omega]

/-- Witness for C2 at a concrete tracked-request state. -/
theorem C2_witness :
    cover_is_opening ⟨50, 80, true⟩ 0 = (true && decide ((80 : Int) > 50)) :=
  (C2_direction_derived ⟨50, 80, true⟩ 0).1 (by decide)

/-- C3 counterexample: at code 201 the raw inequalities of the claim do
not describe the classifier, because 201 is not a recognised member and
collapses to UNKNOWN = 0: is_opening is false although 200 <= 201 < 220,
and is_error is true although 201 >= 200. -/
theorem C3_counterexample :
    (200 ≤ (201 : Int) ∧ (201 : Int) < 220) ∧
    StateCode.is_opening (StateCode.ofInt 201) = false ∧
    ¬ ((201 : Int) < 200) ∧
    StateCode.is_error (StateCode.ofInt 201) = true := by
  decide

/-- C3 (amended): for every integer code the classifier is total — a
recognised code maps to itself and any other code collapses to
UNKNOWN = 0 — and on the classified value v the predicates satisfy
is_error iff v < 200, is_idle iff v = 250, is_opening iff
200 <= v < 220, is_closing iff 220 <= v < 240, and is_moving equals
is_opening or is_closing. -/
theorem C3_classifier_total (c : Int) :
    StateCode.ofInt c ∈ stateCodeMembers ∧
    (c ∈ stateCodeMembers → StateCode.ofInt c = c) ∧
    (c ∉ stateCodeMembers → StateCode.ofInt c = 0) ∧
    (StateCode.is_error (StateCode.ofInt c) = true ↔ StateCode.ofInt c < 200) ∧
    (StateCode.is_idle (StateCode.ofInt c) = true ↔ StateCode.ofInt c = 250) ∧
    (StateCode.is_opening (StateCode.ofInt c) = true ↔
      200 ≤ StateCode.ofInt c ∧ StateCode.ofInt c < 220) ∧
    (StateCode.is_closing (StateCode.ofInt c) = true ↔
      220 ≤ StateCode.ofInt c ∧ StateCode.ofInt c < 240) ∧
    StateCode.is_moving (StateCode.ofInt c) =
      (StateCode.is_opening (StateCode.ofInt c) || StateCode.is_closing (StateCode.ofInt c)) := by
  refine ⟨?_, fun h => ?_, fun h => ?_, ?_, ?_, ?_, ?_, rfl⟩
  · by_cases h : c ∈ stateCodeMembers
    · simp [StateCode.ofInt, h]
    · simp [StateCode.ofInt, h]
      decide
  · simp [StateCode.ofInt, h]
  · simp [StateCode.ofInt, h]
  · simp [StateCode.is_error]
  · simp [StateCode.is_idle]
  · simp [StateCode.is_opening]
  · simp [StateCode.is_closing]

/-- Witness for C3 at the recognised code 230. -/
theorem C3_witness :
    StateCode.ofInt 230 ∈ stateCodeMembers ∧ StateCode.ofInt (230 : Int) = 230 :=
  ⟨(C3_classifier_total 230).1, (C3_classifier_total 230).2.1 (by decide)⟩

/-- C4: async_stop publishes exactly the two-element command list
stop, stop when the current state code is moving, and publishes nothing
when it is not. -/
theorem C4_double_stop (status : SmarwiDeviceProp → Option String) (v : Int)
    (h : device_state_code status = some v) :
    (StateCode.is_moving v = true → async_stop status = some ["stop", "stop"]) ∧
    (StateCode.is_moving v = false → async_stop status = some []) := by
  refine ⟨fun hm => ?_, fun hm => ?_⟩ <;> simp [async_stop, h, hm]

/-- Witness for C4: stopping while CLOSING (230) emits two stop commands,
stopping while IDLE (250) emits none. -/
theorem C4_witness :
    async_stop (statusOfDecoded [("s", "230")]) = some ["stop", "stop"] ∧
    async_stop (statusOfDecoded [("s", "250")]) = some [] :=
  ⟨(C4_double_stop (statusOfDecoded [("s", "230")]) 230 (by decide)).1 (by decide),
   (C4_double_stop (statusOfDecoded [("s", "250")]) 250 (by decide)).2 (by decide)⟩

/-- C9 counterexample: the decimal wire value 16885952 decodes to
192.168.1.1, not to 192.168.0.1 as the claim's scenario states. -/
theorem C9_counterexample :
    parse_ipv4 16885952 ≠ "192.168.0.1" ∧ parse_ipv4 16885952 = "192.168.1.1" := by
  decide

/-- C9 (amended): parse_ipv4 decodes a 32-bit value byte by byte, least
significant byte first, into a dotted quad; in particular 16885952
decodes to 192.168.1.1. -/
theorem C9_little_endian_dotted_quad :
    (∀ b0 b1 b2 b3 : Nat, b0 < 256 → b1 < 256 → b2 < 256 → b3 < 256 →
      parse_ipv4 (b0 + 256 * b1 + 65536 * b2 + 16777216 * b3) =
        toString b0 ++ "." ++ toString b1 ++ "." ++ toString b2 ++ "." ++ toString b3) ∧
    parse_ipv4 16885952 = "192.168.1.1" := by
  refine ⟨fun b0 b1 b2 b3 h0 h1 h2 h3 => ?_, by decide⟩
  unfold parse_ipv4
  rw [show (b0 + 256 * b1 + 65536 * b2 + 16777216 * b3) % 256 = b0 by omega,
      show (b0 + 256 * b1 + 65536 * b2 + 16777216 * b3) / 256 % 256 = b1 by omega,
      show (b0 + 256 * b1 + 65536 * b2 + 16777216 * b3) / 65536 % 256 = b2 by omega,
      show (b0 + 256 * b1 + 65536 * b2 + 16777216 * b3) / 16777216 % 256 = b3 by omega]

/-- Witness for C9 at the byte pattern of 192.168.1.1. -/
theorem C9_witness :
    parse_ipv4 (192 + 256 * 168 + 65536 * 1 + 16777216 * 1) =
      toString 192 ++ "." ++ toString 168 ++ "." ++ toString 1 ++ "." ++ toString 1 :=
  C9_little_endian_dotted_quad.1 192 168 1 1 (by decide) (by decide) (by decide) (by decide)

/-- A character list without a colon has no first-colon split. -/
theorem splitFirstColon_eq_none (l : List Char) (h : ':' ∉ l) :
    splitFirstColon l = none := by
  induction l with
  | nil => rfl
  | cons c rest ih =>
    simp only [List.mem_cons, not_or] at h
    have hc : ¬ c = ':' := fun e => h.1 e.symm
    simp [splitFirstColon, hc, ih h.2]

/-- decodeLines fails whenever some line has no colon. -/
theorem decodeLines_eq_none (lines : List (List Char)) (d : List (String × String))
    (h : ∃ l ∈ lines, splitFirstColon l = none) : decodeLines lines d = none := by
  induction lines generalizing d with
  | nil => simp at h
  | cons l rest ih =>
    obtain ⟨x, hx, hfail⟩ := h
    rcases List.mem_cons.mp hx with rfl | hx
    · simp [decodeLines, hfail]
    · cases hl : splitFirstColon l with
      | none => simp [decodeLines, hl]
      | some p => simp [decodeLines, hl, ih _ ⟨x, hx, hfail⟩]

/-- C6: a frame with a line that has no colon separator is rejected as a
whole — decode_keyval yields no mapping and the status handler leaves the
device state unchanged (dispatching nothing). -/
theorem C6_malformed_frame_rejected (payload : String) (st : DeviceState)
    (h : ∃ l ∈ splitlines payload, ':' ∉ l) :
    decode_keyval payload = none ∧ handleStatusMessage st payload = (st, none) := by
  obtain ⟨l, hl, hc⟩ := h
  have hd : decode_keyval payload = none :=
    decodeLines_eq_none _ _ ⟨l, hl, splitFirstColon_eq_none l hc⟩
  exact ⟨hd, by simp [handleStatusMessage, hd]⟩

/-- Witness for C6 on a concrete two-line frame with a malformed second
line. -/
theorem C6_witness :
    decode_keyval "s:250\nbad" = none ∧
    handleStatusMessage initialState "s:250\nbad" = (initialState, none) :=
  C6_malformed_frame_rejected "s:250\nbad" initialState (by decide)

/-- C8 counterexample: on a freshly constructed device the IP address is
unknown, yet the finetune refresh does not fail — it still publishes the
lcfa read command. -/
theorem C8_counterexample :
    device_ip_address initialState.status = none ∧
    finetune_async_update initialState = ["lcfa"] ∧
    finetune_async_update initialState ≠ [] := by
  refine ⟨rfl, rfl, by decide⟩

/-- C8 (amended): neither finetune operation consults the IP address —
refresh always publishes the lcfa command; a write publishes the settings
write followed by a refresh when the key is already cached, and fails
(KeyError while logging the old value, before anything is sent) when it
is not. -/
theorem C8_finetune_no_ip_check (st : DeviceState) (cache : List (String × Int))
    (key : String) (value : Int) :
    finetune_async_update st = ["lcfa"] ∧
    (cache.any (fun p => p.1 == key) = true →
      finetune_async_set cache key value =
        some ["scfa01/1|" ++
                encode_keyval ((dictInsertInt cache key value).map
                  (fun p => (p.1, toString p.2))),
              "lcfa"]) ∧
    (cache.any (fun p => p.1 == key) = false →
      finetune_async_set cache key value = none) := by
  refine ⟨rfl, fun h => ?_, fun h => ?_⟩ <;> simp [finetune_async_set, h]

/-- Witness for C8: a cached key is written without any IP precondition,
an uncached key fails before sending. -/
theorem C8_witness :
    finetune_async_set [("ospd", 30)] "ospd" 40 =
      some ["scfa01/1|" ++
              encode_keyval ((dictInsertInt [("ospd", 30)] "ospd" 40).map
                (fun p => (p.1, toString p.2))),
            "lcfa"] ∧
    finetune_async_set [] "ospd" 40 = none :=
  ⟨(C8_finetune_no_ip_check initialState [("ospd", 30)] "ospd" 40).2.1 (by decide),
   (C8_finetune_no_ip_check initialState [] "ospd" 40).2.2 (by decide)⟩

/-- Every member belongs to the allProps enumeration. -/
theorem mem_allProps (p : SmarwiDeviceProp) : p ∈ allProps := by
  cases p <;> decide

/-- C10: a frame carrying the literal key of a synthetic property
(available or finetune_settings) passes the key filter: the key is stored
in the snapshot and the property appears in the dispatched changed set,
while the availability flag and the finetune cache are untouched. -/
theorem C10_synthetic_keys_admitted (st : DeviceState) (payload : String)
    (kvs : List (String × String)) (p : SmarwiDeviceProp) (v : String)
    (_hp : p = SmarwiDeviceProp.available ∨ p = SmarwiDeviceProp.finetune_settings)
    (hdec : decode_keyval payload = some kvs)
    (hv : statusOfDecoded kvs p = some v)
    (hne : st.status p ≠ some v) :
    (handleStatusMessage st payload).1.status p = some v ∧
    (∃ cs, (handleStatusMessage st payload).2 = some cs ∧ p ∈ cs) ∧
    (handleStatusMessage st payload).1.avail = st.avail ∧
    (handleStatusMessage st payload).1.finetuneData = st.finetuneData := by
  have hmem : p ∈ changedProps st.status (statusOfDecoded kvs) :=
    List.mem_filter.mpr ⟨mem_allProps p, by simp [hv, hne]⟩
  refine ⟨?_, ⟨changedProps st.status (statusOfDecoded kvs), ?_, hmem⟩, ?_, ?_⟩ <;>
    simp [handleStatusMessage, hdec, hv]

/-- Witness for C10 on the frame available:1 applied to a fresh device. -/
theorem C10_witness :
    (handleStatusMessage initialState "available:1").1.status SmarwiDeviceProp.available =
      some "1" ∧
    (handleStatusMessage initialState "available:1").1.avail = initialState.avail :=
  ⟨(C10_synthetic_keys_admitted initialState "available:1" [("available", "1")]
      SmarwiDeviceProp.available "1" (Or.inl rfl) (by decide) (by decide) (by decide)).1,
   (C10_synthetic_keys_admitted initialState "available:1" [("available", "1")]
      SmarwiDeviceProp.available "1" (Or.inl rfl) (by decide) (by decide) (by decide)).2.2.1⟩

/-- C5 counterexample: two successfully decoded frames, the first of
which carries no recognised key, make the handler send the discovery
signal twice — the snapshot is still empty when the second frame
arrives. -/
theorem C5_counterexample :
    decode_keyval "foo:1" = some [("foo", "1")] ∧
    decode_keyval "s:250" = some [("s", "250")] ∧
    (runFrames initialState ["foo:1", "s:250"]).discoveryCount = 2 := by
  refine ⟨by decide, by decide, by decide⟩

/-- Frames that decode to a non-empty filtered snapshot never fire the
discovery signal once the snapshot is non-empty. -/
theorem runFrames_no_discovery (frames : List String) (st : DeviceState)
    (hne : statusEmpty st.status = false)
    (hf : ∀ g ∈ frames,
      (decode_keyval g).map (fun kvs => statusEmpty (statusOfDecoded kvs)) = some false) :
    (runFrames st frames).discoveryCount = st.discoveryCount := by
  induction frames generalizing st with
  | nil => rfl
  | cons f rest ih =>
    obtain ⟨kvs, hd, hs⟩ := Option.map_eq_some'.mp (hf f (by simp))
    have hstep : (handleStatusMessage st f).1 =
        { st with status := statusOfDecoded kvs, discoveryCount := st.discoveryCount } := by
      simp [handleStatusMessage, hd, hne]
    have hrun : runFrames st (f :: rest) = runFrames (handleStatusMessage st f).1 rest := rfl
    rw [hrun, hstep]
    exact ih _ hs (fun g hg => hf g (List.mem_cons_of_mem _ hg))

/-- C5 (amended): over a sequence of frames that each decode successfully
to a snapshot with at least one recognised key, the discovery signal is
sent on the first frame (applied to the empty snapshot) and exactly once
over the whole sequence. -/
theorem C5_discovery_fired_once (f : String) (rest : List String)
    (hf : ∀ g ∈ f :: rest,
      (decode_keyval g).map (fun kvs => statusEmpty (statusOfDecoded kvs)) = some false) :
    (handleStatusMessage initialState f).1.discoveryCount = 1 ∧
    (runFrames initialState (f :: rest)).discoveryCount = 1 := by
  obtain ⟨kvs, hd, hs⟩ := Option.map_eq_some'.mp (hf f (by simp))
  have hstep : (handleStatusMessage initialState f).1 =
      { initialState with status := statusOfDecoded kvs, discoveryCount := 1 } := by
    simp [handleStatusMessage, hd, initialState, statusEmpty, allProps]
  refine ⟨by rw [hstep], ?_⟩
  have hrun : runFrames initialState (f :: rest) =
      runFrames (handleStatusMessage initialState f).1 rest := rfl
  rw [hrun, hstep]
  exact runFrames_no_discovery rest _ hs (fun g hg => hf g (List.mem_cons_of_mem _ hg))

/-- Witness for C5 on two concrete status frames. -/
theorem C5_witness :
    (runFrames initialState ["s:250", "s:230"]).discoveryCount = 1 :=
  (C5_discovery_fired_once "s:250" ["s:230"] (by decide)).2

/-- Consuming a non-boundary character just extends the current line. -/
theorem splitlinesAux_cons_not_break (c : Char) (rest acc : List Char)
    (h : isLineBreakChar c = false) :
    splitlinesAux (c :: rest) acc = splitlinesAux rest (c :: acc) := by
  have hc : (c == '\r') = false := by
    cases hcc : c == '\r'
    · rfl
    · have := eq_of_beq hcc
      subst this
      simp [isLineBreakChar] at h
  rw [splitlinesAux.eq_def]
  dsimp only
  rw [hc, h]
  simp

/-- Consuming a line feed closes the current line. -/
theorem splitlinesAux_cons_newline (rest acc : List Char) :
    splitlinesAux ('\n' :: rest) acc = acc.reverse :: splitlinesAux rest [] := by
  have h1 : ('\n' == '\r') = false := by decide
  have h2 : isLineBreakChar '\n' = true := by decide
  rw [splitlinesAux.eq_def]
  dsimp only
  rw [h1, h2]
  simp

/-- Splitting off a complete break-free line before a line feed. -/
theorem splitlinesAux_line_append (l : List Char)
    (hl : ∀ c ∈ l, isLineBreakChar c = false) (rest acc : List Char) :
    splitlinesAux (l ++ '\n' :: rest) acc =
      (acc.reverse ++ l) :: splitlinesAux rest [] := by
  induction l generalizing acc with
  | nil => simpa using splitlinesAux_cons_newline rest acc
  | cons c l ih =>
    have hc : isLineBreakChar c = false := hl c (by simp)
    have hl2 : ∀ x ∈ l, isLineBreakChar x = false := fun x hx => hl x (by simp [hx])
    rw [List.cons_append, splitlinesAux_cons_not_break c _ _ hc, ih hl2]
    simp

/-- A break-free nonempty tail is the final line. -/
theorem splitlinesAux_last_line (l : List Char)
    (hl : ∀ c ∈ l, isLineBreakChar c = false) (acc : List Char)
    (hne : acc.reverse ++ l ≠ []) :
    splitlinesAux l acc = [acc.reverse ++ l] := by
  induction l generalizing acc with
  | nil =>
    have : ¬ acc.isEmpty = true := by
      simpa [List.isEmpty_iff] using fun e => hne (by simp [e])
    simp [splitlinesAux, this]
  | cons c l ih =>
    have hc : isLineBreakChar c = false := hl c (by simp)
    have hl2 : ∀ x ∈ l, isLineBreakChar x = false := fun x hx => hl x (by simp [hx])
    rw [splitlinesAux_cons_not_break c _ _ hc, ih hl2 _ (by simp)]
    simp

/-- The character content of one encoded key:value line. -/
def lineChars (p : String × String) : List Char :=
  p.1.data ++ ':' :: p.2.data

/-- Encoding a mapping with at least two entries starts with the first
line followed by a newline. -/
theorem encode_data_cons (p : String × String) (rest : List (String × String))
    (hne : rest ≠ []) :
    (encode_keyval (p :: rest)).data = lineChars p ++ '\n' :: (encode_keyval rest).data := by
  cases rest with
  | nil => exact absurd rfl hne
  | cons q rest' =>
    show (p.1 ++ ":" ++ p.2 ++ "\n" ++ encode_keyval (q :: rest')).data = _
    simp [String.data_append, lineChars]

/-- Encoding a one-entry mapping is a single line. -/
theorem encode_data_single (p : String × String) :
    (encode_keyval [p]).data = lineChars p := by
  show (p.1 ++ ":" ++ p.2).data = _
  simp [String.data_append, lineChars]

/-- An encoded line of a break-free key and value is break-free. -/
theorem lineChars_no_break (p : String × String)
    (hk : ∀ c ∈ p.1.data, isLineBreakChar c = false)
    (hv : ∀ c ∈ p.2.data, isLineBreakChar c = false) :
    ∀ c ∈ lineChars p, isLineBreakChar c = false := by
  intro c hc
  rcases List.mem_append.mp hc with h | h
  · exact hk c h
  · rcases List.mem_cons.mp h with rfl | h
    · decide
    · exact hv c h

/-- splitlines recovers exactly the encoded lines of a break-free
mapping. -/
theorem splitlines_encode (d : List (String × String))
    (hk : ∀ p ∈ d, ∀ c ∈ p.1.data, isLineBreakChar c = false)
    (hv : ∀ p ∈ d, ∀ c ∈ p.2.data, isLineBreakChar c = false) :
    splitlines (encode_keyval d) = d.map lineChars := by
  induction d with
  | nil => rfl
  | cons p rest ih =>
    have hlp : ∀ c ∈ lineChars p, isLineBreakChar c = false :=
      lineChars_no_break p (hk p (by simp)) (hv p (by simp))
    cases rest with
    | nil =>
      unfold splitlines
      rw [encode_data_single p]
      rw [splitlinesAux_last_line _ hlp [] (by simp [lineChars])]
      simp
    | cons q rest' =>
      unfold splitlines
      rw [encode_data_cons p (q :: rest') (by simp)]
      rw [splitlinesAux_line_append _ hlp _ []]
      have ihr := ih (fun x hx => hk x (by simp [hx])) (fun x hx => hv x (by simp [hx]))
      unfold splitlines at ihr
      rw [ihr]
      simp

/-- Splitting an encoded line at its first colon recovers the key and the
value when the key has no colon. -/
theorem splitFirstColon_append (k v : List Char) (hk : ':' ∉ k) :
    splitFirstColon (k ++ ':' :: v) = some (k, v) := by
  induction k with
  | nil => simp [splitFirstColon]
  | cons c k ih =>
    simp only [List.mem_cons, not_or] at hk
    have hc : (c == ':') = false := by
      cases h : c == ':'
      · rfl
      · exact absurd (eq_of_beq h).symm hk.1
    simp [splitFirstColon, hc, ih hk.2]

/-- Inserting a fresh key into a Python dict appends it at the end. -/
theorem dictInsert_fresh (d : List (String × String)) (k v : String)
    (h : k ∉ d.map Prod.fst) :
    dictInsert d k v = d ++ [(k, v)] := by
  have ha : d.any (fun p => p.1 == k) = false := by
    cases hany : d.any (fun p => p.1 == k)
    · rfl
    · obtain ⟨p, hp, he⟩ := List.any_eq_true.mp hany
      exact absurd (List.mem_map_of_mem Prod.fst hp) ((eq_of_beq he) ▸ h)
  simp [dictInsert, ha]

/-- Folding the encoded lines of a colon-free-keyed, duplicate-free
mapping rebuilds the mapping behind the accumulator. -/
theorem decodeLines_encode (d : List (String × String))
    (acc : List (String × String))
    (hk : ∀ p ∈ d, ':' ∉ p.1.data)
    (hnd : (d.map Prod.fst).Nodup)
    (hdisj : ∀ p ∈ d, p.1 ∉ acc.map Prod.fst) :
    decodeLines (d.map lineChars) acc = some (acc ++ d) := by
  induction d generalizing acc with
  | nil => simp [decodeLines]
  | cons p rest ih =>
    have hsc : splitFirstColon (lineChars p) = some (p.1.data, p.2.data) :=
      splitFirstColon_append _ _ (hk p (by simp))
    have hmk : dictInsert acc (String.mk p.1.data) (String.mk p.2.data) =
        acc ++ [p] := by
      have h1 : String.mk p.1.data = p.1 := rfl
      rw [h1, show String.mk p.2.data = p.2 from rfl,
        dictInsert_fresh acc p.1 p.2 (hdisj p (by simp))]
    simp only [List.map_cons, decodeLines, hsc, hmk]
    have h1 : ∀ q ∈ rest, ':' ∉ q.1.data := fun q hq => hk q (by simp [hq])
    have h2 : (rest.map Prod.fst).Nodup := (List.nodup_cons.mp (by simpa using hnd)).2
    have h3 : ∀ q ∈ rest, q.1 ∉ (acc ++ [p]).map Prod.fst := by
      intro q hq
      simp only [List.map_append, List.mem_append, not_or]
      refine ⟨hdisj q (by simp [hq]), ?_⟩
      intro hmem
      have hqp : q.1 = p.1 := by simpa using hmem
      have hp1 : p.1 ∈ rest.map Prod.fst := hqp ▸ List.mem_map_of_mem Prod.fst hq
      exact (List.nodup_cons.mp (by simpa using hnd)).1 hp1
    rw [ih _ h1 h2 h3]
    simp

/-- C7 counterexample: the mapping k to "a", VT, "b" has no newline (LF
or CR) and no colon in its key and no newline in its value, yet the round
trip fails — Python splitlines also breaks on the vertical tab, so decode
rejects the re-read frame entirely. -/
theorem C7_counterexample :
    (∀ c ∈ ("k" : String).data, c ≠ '\n' ∧ c ≠ '\r' ∧ c ≠ ':') ∧
    (∀ c ∈ (String.mk ['a', Char.ofNat 11, 'b']).data, c ≠ '\n' ∧ c ≠ '\r') ∧
    decode_keyval (encode_keyval [("k", String.mk ['a', Char.ofNat 11, 'b'])]) = none := by
  refine ⟨by decide, by decide, by decide⟩

/-- C7 (amended): for every mapping with duplicate-free keys whose keys
contain no line-boundary character and no colon and whose values contain
no line-boundary character (the boundaries recognised by splitlines: LF,
CR, VT, FF, FS, GS, RS, NEL, LS, PS), decoding the encoding returns
exactly the mapping, entries in the same order. -/
theorem C7_roundtrip (m : List (String × String))
    (hkeys : ∀ p ∈ m, (∀ c ∈ p.1.data, isLineBreakChar c = false) ∧ ':' ∉ p.1.data)
    (hvals : ∀ p ∈ m, ∀ c ∈ p.2.data, isLineBreakChar c = false)
    (hnodup : (m.map Prod.fst).Nodup) :
    decode_keyval (encode_keyval m) = some m := by
  unfold decode_keyval
  rw [splitlines_encode m (fun p hp => (hkeys p hp).1) hvals]
  rw [decodeLines_encode m [] (fun p hp => (hkeys p hp).2) hnodup (by simp)]
  simp

/-- Witness for C7 on a concrete two-entry mapping. -/
theorem C7_witness :
    decode_keyval (encode_keyval [("cid", "Living room"), ("s", "250")]) =
      some [("cid", "Living room"), ("s", "250")] :=
  C7_roundtrip [("cid", "Living room"), ("s", "250")] (by decide) (by decide) (by decide)

end Smarwi
